import Mathlib

/-
Verification of the Fitz-Man simulation core (src/main.py) against its
natural-language specification.

Shallow embedding conventions:
* Python ints are `Int`; Python `%` on a positive modulus agrees with Lean's
  `Int.emod`, and Python `//` on a positive divisor agrees with `Int.ediv`,
  so `%` and `/` below are the Lean operators.
* Real-time quantities (`dt`, `engine_accum`, `engine_dt`) are modelled
  exactly, over `ℚ`.
* The level engine (`field.GameEngine` / `levelGenerate` / `loopFunction`,
  from data/field.py, which is not part of this repository's sources here)
  is abstracted: fresh-level construction is a parameter
  `gen : Int → Engine` and the per-tick engine advance is a parameter
  `loopF : Engine → Engine`.  `os.path.exists` for level files is a
  parameter `existsL : Int → Bool`.
* Python exceptions are modelled with `Except String`: the undefined
  attribute `_wrap_dist` used at src/main.py:283 raises `AttributeError`
  (only `_wrap_dist_x` is defined on the class), and `raise SystemExit`
  in `handle_event` is an error value.
-/

namespace FitzMan

/-! ### Constants (src/main.py lines 15-23, 136-138, 343) -/

def GRID_W : Int := 28
def GRID_H : Int := 32

/-- Engine absolute-grid periods, `_check_ghost_collision` lines 258-260. -/
def W_ABS : Int := GRID_W * 4

def H_ABS : Int := GRID_H * 4

/-- Fixed tick duration: `engine_dt = 1.0 / engine_hz` with `engine_hz = 10`
(lines 136-137). -/
def engine_dt : ℚ := 1 / 10

/-- Tick cap per frame: `max_steps = 5` (line 343). -/
def max_steps : Nat := 5

/-! ### Data model -/

/-- A cell of the level grid: `obj.name` / `obj.isDestroyed` as read and
written at src/main.py lines 360-363. -/
structure TileObject where
  name : String
  isDestroyed : Bool
deriving DecidableEq, Repr

/-- An agent record (player or pursuer): the fields of the engine's moving
objects that src/main.py reads or writes. -/
structure MovingObject where
  coordinateAbs : Int × Int
  coordinateRel : Int × Int
  isActive : Bool
  isCaged : Bool
  dirNext : String
deriving DecidableEq, Repr

/-- The slice of the level-engine state that the core reads or writes:
player, pursuers, tile grid, remaining-pellet counter. -/
structure Engine where
  movingObjectPacman : MovingObject
  movingObjectGhosts : List MovingObject
  levelObjects : Int → Int → TileObject
  levelPelletRemaining : Int

/-- The `Game` session state of src/main.py: score, lives, level index,
game-over flag, machine state string, owned engine, tick accumulator and
the animation clock (`_anim_t`). -/
structure Game where
  score : Int
  lives : Int
  level : Int
  game_over : Bool
  state : String
  engine : Engine
  engine_accum : ℚ
  anim_t : ℚ

/-! ### Coordinate utilities (src/main.py lines 240-247) -/

/-- Function `_wrap_dist_x(a, b, period)` (lines 240-244): shorter arc between two
points of a ring of the given period. -/
def wrap_dist_x (a b period : Int) : Int :=
  let a := a % period
  let b := b % period
  let d := |a - b|
  min d (period - d)

/-- Function `_dist_y(a, b)` (lines 246-247): plain linear distance. -/
def dist_y (a b : Int) : Int := |a - b|

/-- The local `signed_delta(a, b, period)` of `_check_ghost_collision`
(lines 294-299): signed offset of `a` relative to `b` on the ring,
normalized into `(-period/2, period/2]`. -/
def signed_delta (a b period : Int) : Int :=
  let a := a % period
  let b := b % period
  let d := (a - b) % period
  if d > period / 2 then d - period else d

/-! ### Lifecycle: life loss (src/main.py lines 322-331) -/

/-- Sets `engine.movingObjectPacman.isActive = True` on a fresh engine, as
done after every `levelGenerate` call (lines 135, 329, 378, 390). -/
def withPacActive (e : Engine) : Engine :=
  { e with movingObjectPacman := { e.movingObjectPacman with isActive := true } }

/-- Method `_lose_life` (lines 322-331): decrement lives; below zero sets the
game-over flag, otherwise installs a fresh engine for the same level with
the player active and zeroes the accumulator.  Always returns `True`. -/
def lose_life (gen : Int → Engine) (g : Game) : Game × Bool :=
  let lives := g.lives - 1
  if lives < 0 then
    ({ g with lives := lives, game_over := true }, true)
  else
    ({ g with lives := lives,
              engine := withPacActive (gen g.level),
              engine_accum := 0 }, true)

/-! ### Collision detector (src/main.py lines 249-319)

The per-ghost loop.  `px, py` are the player's current absolute
coordinates (read once before the loop, line 262); each list element pairs
a ghost with its snapshotted previous absolute position
(`ghosts_prev_abs[i]`).  When the overlap test fails for an active,
non-caged ghost, the next statement (line 283) evaluates
`self._wrap_dist(...)`, an attribute that does not exist on the class
(`_wrap_dist_x` is the defined name), so the call raises `AttributeError`;
the tunneling tests of lines 291-317 are unreachable. -/

def attrError : String := "AttributeError: Game object has no attribute _wrap_dist"

def check_ghost_collision_go (gen : Int → Engine) (g : Game) (px py : Int) :
    List (MovingObject × (Int × Int)) → Except String (Game × Bool)
  | [] => .ok (g, false)
  | (gh, _) :: rest =>
    if gh.isActive = false ∨ gh.isCaged = true then
      check_ghost_collision_go gen g px py rest
    else
      let dx := wrap_dist_x px gh.coordinateAbs.1 W_ABS
      let dy := dist_y py gh.coordinateAbs.2
      if dx ≤ 3 ∧ dy ≤ 3 then .ok (lose_life gen g)
      else .error attrError

/-- Method `_check_ghost_collision(pac_prev_abs, ghosts_prev_abs)`
(lines 249-319),
reading the current player and ghost positions from `g.engine`. -/
def check_ghost_collision (gen : Int → Engine) (g : Game)
    (pac_prev_abs : Int × Int) (ghosts_prev_abs : List (Int × Int)) :
    Except String (Game × Bool) :=
  let _ := pac_prev_abs
  check_ghost_collision_go gen g
    g.engine.movingObjectPacman.coordinateAbs.1
    g.engine.movingObjectPacman.coordinateAbs.2
    (g.engine.movingObjectGhosts.zip ghosts_prev_abs)

/-! ### Pellet consumption (src/main.py lines 355-365) -/

/-- The pellet block of `update` (lines 355-365): only when both absolute
sub-unit components are zero and the relative tile coordinates are inside
the grid, an un-destroyed pellet tile is destroyed and reclassified as
empty, the pellet counter is decremented and 10 points are scored. -/
def pellet_step (g : Game) : Game :=
  let ax := g.engine.movingObjectPacman.coordinateAbs.1
  let ay := g.engine.movingObjectPacman.coordinateAbs.2
  if ax % 4 = 0 ∧ ay % 4 = 0 then
    let rx := g.engine.movingObjectPacman.coordinateRel.1
    let ry := g.engine.movingObjectPacman.coordinateRel.2
    if 0 ≤ rx ∧ rx < GRID_W ∧ 0 ≤ ry ∧ ry < GRID_H then
      let obj := g.engine.levelObjects rx ry
      if obj.name = "pellet" ∧ obj.isDestroyed = false then
        { g with
          engine := { g.engine with
            levelObjects := fun x y =>
              if x = rx ∧ y = ry then { name := "empty", isDestroyed := true }
              else g.engine.levelObjects x y,
            levelPelletRemaining := g.engine.levelPelletRemaining - 1 },
          score := g.score + 10 }
      else g
    else g
  else g

/-! ### Lifecycle: level advance (src/main.py lines 370-379) -/

/-- Method `_advance_level` (lines 370-379): increment the level index, wrap to 1
when the next level file does not exist (`existsL` models
`os.path.exists("resource/level<n>.txt")`), install a fresh engine with
the player active, zero the accumulator.  The interim
`levelPelletRemaining = 0` assignment of line 376 is overwritten by
`levelGenerate`, which resets the pellet counter, so `gen` (modelling
`GameEngine()` followed by `levelGenerate`) absorbs it. -/
def advance_level (gen : Int → Engine) (existsL : Int → Bool) (g : Game) : Game :=
  let level := g.level + 1
  let level := if existsL level then level else 1
  { g with level := level,
           engine := withPacActive (gen level),
           engine_accum := 0 }

/-! ### Simulation stepper (src/main.py lines 334-368)

The source file is truncated inside `update`: the body of the pellet-
exhaustion branch (`if self.engine.levelPelletRemaining <= 0:` at line
368) and, with it, the loop's budget-consume / step-count statements are
absent.  They are modelled from the spec (§4.3): each loop iteration
first consumes one tick duration from the budget and counts one step, and
the pellet-exhaustion branch runs `_advance_level` and ends the tick loop
for the frame. -/

/-- Modelled from the spec: "consume one tick duration from the budget"
at the start of each loop iteration (the consume statement is missing
from the truncated source), followed by the engine's single-tick advance
`self.engine.loopFunction()` (line 349). -/
def consumeTick (loopF : Engine → Engine) (g : Game) : Game :=
  { g with engine_accum := g.engine_accum - engine_dt,
           engine := loopF g.engine }

/-- One tick's collision check: previous positions are snapshotted from
the pre-tick engine (lines 346-347), the engine advances, and
`_check_ghost_collision` runs against the post-tick state (line 352). -/
def tickOnce (gen : Int → Engine) (loopF : Engine → Engine) (g : Game) :
    Except String (Game × Bool) :=
  check_ghost_collision gen (consumeTick loopF g)
    g.engine.movingObjectPacman.coordinateAbs
    (g.engine.movingObjectGhosts.map (fun gh => gh.coordinateAbs))

/-- The `while self.engine_accum >= self.engine_dt and steps < max_steps`
loop of `update` (lines 345-368), with the spec-modelled tail of the loop
body (see above).  Returns the post-loop state and the number of ticks
that ran.  A collision ends the frame immediately (line 353); pellet
exhaustion advances the level and ends the frame (spec §4.3). -/
def tickLoop (gen : Int → Engine) (loopF : Engine → Engine)
    (existsL : Int → Bool) : Game → Nat → Except String (Game × Nat)
  | g, 0 => .ok (g, 0)
  | g, n + 1 =>
    if engine_dt ≤ g.engine_accum then
      match tickOnce gen loopF g with
      | .error msg => .error msg
      | .ok (g3, true) => .ok (g3, 1)
      | .ok (g3, false) =>
        let g4 := pellet_step g3
        if g4.engine.levelPelletRemaining ≤ 0 then
          .ok (advance_level gen existsL g4, 1)
        else
          match tickLoop gen loopF existsL g4 n with
          | .error msg => .error msg
          | .ok (g5, k) => .ok (g5, k + 1)
    else .ok (g, 0)

/-- Method `update(dt)` (lines 334-368): no-op when game over or not in PLAY;
otherwise accumulate the real delta (and the animation clock, line 338)
and run at most `max_steps` ticks. -/
def update (gen : Int → Engine) (loopF : Engine → Engine)
    (existsL : Int → Bool) (g : Game) (dt : ℚ) : Except String (Game × Nat) :=
  if g.game_over = true ∨ g.state ≠ "PLAY" then .ok (g, 0)
  else
    tickLoop gen loopF existsL
      { g with anim_t := g.anim_t + dt, engine_accum := g.engine_accum + dt }
      max_steps

/-! ### Restart and event handling (src/main.py lines 179-238, 382-394) -/

/-- Method `reset_game` (lines 382-394): reset score, lives, level, game-over
flag, install a fresh level-1 engine with the player active, zero the
accumulator (the `hasattr` guard of line 393 is always true after
`__init__`). -/
def reset_game (gen : Int → Engine) (g : Game) : Game :=
  { g with score := 0, lives := 2, level := 1, game_over := false,
           engine := withPacActive (gen 1), engine_accum := 0 }

/-- An input event as consumed by `handle_event`: key presses, pointer
press/release with a screen position, or a touch press with normalized
coordinates. -/
inductive Event where
  | keydown (key : String)
  | mousebuttondown (pos : Int × Int)
  | mousebuttonup (pos : Int × Int)
  | fingerdown (x y : ℚ)
deriving DecidableEq, Repr

/-- Key-to-direction table `KEY_TO_DIR` (lines 25-34). -/
def KEY_TO_DIR (k : String) : Option String :=
  if k = "left" ∨ k = "a" then some "Left"
  else if k = "right" ∨ k = "d" then some "Right"
  else if k = "up" ∨ k = "w" then some "Up"
  else if k = "down" ∨ k = "s" then some "Down"
  else none

/-- Stores a requested direction into the player agent
(`self.engine.movingObjectPacman.dirNext = d`). -/
def setDirNext (g : Game) (d : String) : Game :=
  { g with engine := { g.engine with
      movingObjectPacman := { g.engine.movingObjectPacman with dirNext := d } } }

/-- Method `handle_event(e)` (lines 179-238).  `inStart` models
`self.start_btn.collidepoint` on pixel positions, `fingerInStart` the
same test on normalized finger coordinates (lines 217-223), `dpadDir`
models `self.dpad.dir_for_pos`.  `raise SystemExit` on Escape is the
error value. -/
def handle_event (gen : Int → Engine) (inStart : Int × Int → Bool)
    (fingerInStart : ℚ → ℚ → Bool) (dpadDir : Int × Int → Option String)
    (g : Game) (e : Event) : Except String Game :=
  match e with
  | .keydown k =>
    if k = "escape" then .error "SystemExit"
    else if g.game_over then
      if k = "return" ∨ k = "space" then
        .ok { reset_game gen g with state := "TITLE" }
      else .ok g
    else if g.state = "TITLE" then
      if k = "return" ∨ k = "space" then .ok { g with state := "PLAY" }
      else .ok g
    else
      match KEY_TO_DIR k with
      | some d => .ok (setDirNext g d)
      | none => .ok g
  | .mousebuttondown pos =>
    if g.game_over then .ok { reset_game gen g with state := "TITLE" }
    else if g.state = "TITLE" then
      if inStart pos then .ok { g with state := "PLAY" } else .ok g
    else
      match dpadDir pos with
      | some d => .ok (setDirNext g d)
      | none => .ok g
  | .mousebuttonup pos =>
    if g.game_over then .ok { reset_game gen g with state := "TITLE" }
    else if g.state = "TITLE" then
      if inStart pos then .ok { g with state := "PLAY" } else .ok g
    else .ok g
  | .fingerdown x y =>
    if g.game_over then .ok { reset_game gen g with state := "TITLE" }
    else if g.state = "TITLE" then
      if fingerInStart x y then .ok { g with state := "PLAY" } else .ok g
    else .ok g

/-! ### Initial state and reachability (src/main.py lines 113-172, 449-470) -/

/-- The session state built by `Game.__init__` (lines 127-138, 154, 172):
score 0, lives 2, level 1, not game over, TITLE state, fresh level-1
engine with the player active, zero accumulator. -/
def initGame (gen : Int → Engine) : Game :=
  { score := 0, lives := 2, level := 1, game_over := false,
    state := "TITLE", engine := withPacActive (gen 1),
    engine_accum := 0, anim_t := 0 }

/-- Session states reachable from startup through the frame loop of
`main` (lines 449-470): any interleaving of successfully handled events
and successful `update` calls.  An exception (`SystemExit` or the
collision detector's `AttributeError`) ends the process, so only `.ok`
results yield successor states. -/
inductive Reachable (gen : Int → Engine) (loopF : Engine → Engine)
    (existsL : Int → Bool) (inStart : Int × Int → Bool)
    (fingerInStart : ℚ → ℚ → Bool) (dpadDir : Int × Int → Option String) :
    Game → Prop where
  | init : Reachable gen loopF existsL inStart fingerInStart dpadDir (initGame gen)
  | ev {g g' : Game} {e : Event} :
      Reachable gen loopF existsL inStart fingerInStart dpadDir g →
      handle_event gen inStart fingerInStart dpadDir g e = .ok g' →
      Reachable gen loopF existsL inStart fingerInStart dpadDir g'
  | upd {g g' : Game} {dt : ℚ} {k : Nat} :
      Reachable gen loopF existsL inStart fingerInStart dpadDir g →
      update gen loopF existsL g dt = .ok (g', k) →
      Reachable gen loopF existsL inStart fingerInStart dpadDir g'

/-! ### Concrete fixtures used by witnesses and counterexamples -/

def tile0 : TileObject := { name := "empty", isDestroyed := false }

def agentAt (x y : Int) : MovingObject :=
  { coordinateAbs := (x, y), coordinateRel := (x / 4, y / 4),
    isActive := true, isCaged := false, dirNext := "Left" }

def engOf (pac : MovingObject) (ghosts : List MovingObject) (pellets : Int) :
    Engine :=
  { movingObjectPacman := pac, movingObjectGhosts := ghosts,
    levelObjects := fun _ _ => tile0, levelPelletRemaining := pellets }

def cgen : Int → Engine := fun _ => engOf (agentAt 1 1) [] 5

def cexists : Int → Bool := fun _ => true

def cInStart : Int × Int → Bool := fun _ => false

def cFingerInStart : ℚ → ℚ → Bool := fun _ _ => false

def cDpad : Int × Int → Option String := fun _ => none

def gameWith (lives : Int) (e : Engine) (acc : ℚ) : Game :=
  { score := 0, lives := lives, level := 1, game_over := false,
    state := "PLAY", engine := e, engine_accum := acc, anim_t := 0 }

def pelletGrid : Int → Int → TileObject :=
  fun _ _ => { name := "pellet", isDestroyed := false }

/-- A session whose player sits exactly on tile (1,2) of an all-pellet
grid. -/
def gEat : Game :=
  gameWith 2
    { movingObjectPacman := agentAt 4 8, movingObjectGhosts := [],
      levelObjects := pelletGrid, levelPelletRemaining := 5 } 0

def cloop : Engine → Engine := fun _ => engOf (agentAt 1 1) [] 10

/-- An engine tick whose result has no ghosts and no pellets left. -/
def cloopZero : Engine → Engine := fun _ => engOf (agentAt 1 1) [] 0

def gC2 : Game := gameWith 2 (engOf (agentAt 1 1) [] 0) 1

def gC7 : Game := gameWith 2 (engOf (agentAt 1 1) [] 10) 0

def gOver : Game := { gameWith 2 (engOf (agentAt 1 1) [] 5) 0 with game_over := true }

/-- The session invariant behind C10: lives never fall below -1, and
while the game-over flag is clear lives are non-negative. -/
def SessionInv (g : Game) : Prop :=
  -1 ≤ g.lives ∧ (g.game_over = false → 0 ≤ g.lives)

end FitzMan

namespace FitzMan

/-! ## Shared helper lemmas -/

theorem lose_life_snd (gen : Int → Engine) (g : Game) :
    (lose_life gen g).2 = true := by
  simp only [lose_life]
  split <;> rfl

/-- The per-ghost loop either falls through with the state untouched and
result `false`, or performs the life-loss procedure and reports `true`
(when it returns at all). -/
theorem check_go_cases (gen : Int → Engine) (g : Game) (px py : Int)
    (pairs : List (MovingObject × (Int × Int))) (g' : Game) (b : Bool)
    (h : check_ghost_collision_go gen g px py pairs = .ok (g', b)) :
    (b = false ∧ g' = g) ∨ (b = true ∧ g' = (lose_life gen g).1) := by
  induction pairs with
  | nil =>
    rw [check_ghost_collision_go] at h
    cases h
    exact Or.inl ⟨rfl, rfl⟩
  | cons p rest ih =>
    simp only [check_ghost_collision_go] at h
    split at h
    · exact ih h
    · split at h
      · rw [Except.ok.injEq] at h
        refine Or.inr ⟨?_, ?_⟩
        · rw [← lose_life_snd gen g, h]
        · rw [h]
      · cases h

theorem check_cases (gen : Int → Engine) (g : Game) (pp : Int × Int)
    (gp : List (Int × Int)) (g' : Game) (b : Bool)
    (h : check_ghost_collision gen g pp gp = .ok (g', b)) :
    (b = false ∧ g' = g) ∨ (b = true ∧ g' = (lose_life gen g).1) :=
  check_go_cases gen g _ _ _ g' b h

theorem pellet_step_preserves (g : Game) :
    (pellet_step g).lives = g.lives ∧
    (pellet_step g).game_over = g.game_over ∧
    (pellet_step g).engine_accum = g.engine_accum ∧
    (pellet_step g).level = g.level ∧
    (pellet_step g).state = g.state ∧
    (pellet_step g).score = g.score + 10 ∨
    pellet_step g = g := by
  simp only [pellet_step]
  split
  · split
    · split
      · exact Or.inl ⟨rfl, rfl, rfl, rfl, rfl, rfl⟩
      · exact Or.inr rfl
    · exact Or.inr rfl
  · exact Or.inr rfl

/-! ## Claim theorems -/

/-- C9: for all positive periods `p` and integers `a`, `b`,
`wrapDistance(a,b,p)` equals `wrapDistance(b,a,p)` and lies between `0`
and `p/2`. -/
theorem wrap_dist_symm_bounds (a b p : Int) (hp : 0 < p) :
    wrap_dist_x a b p = wrap_dist_x b a p ∧
    0 ≤ wrap_dist_x a b p ∧ wrap_dist_x a b p ≤ p / 2 := by
  have hp0 : p ≠ 0 := ne_of_gt hp
  have ha0 : 0 ≤ a % p := Int.emod_nonneg a hp0
  have ha1 : a % p < p := Int.emod_lt_of_pos a hp
  have hb0 : 0 ≤ b % p := Int.emod_nonneg b hp0
  have hb1 : b % p < p := Int.emod_lt_of_pos b hp
  have hd0 : 0 ≤ |a % p - b % p| := abs_nonneg _
  have hd1 : |a % p - b % p| < p := by
    rw [abs_sub_lt_iff]
    omega
  simp only [wrap_dist_x]
  refine ⟨by rw [abs_sub_comm], le_min hd0 (by omega), ?_⟩
  rcases le_total (|a % p - b % p|) (p - |a % p - b % p|) with h | h
  · rw [min_eq_left h]
    omega
  · rw [min_eq_right h]
    omega

/-- C9 witness: concrete evaluation at `a = 1`, `b = 111`, `p = 112`. -/
theorem wrap_dist_symm_bounds_witness :
    wrap_dist_x 1 111 112 = wrap_dist_x 111 1 112 ∧
    0 ≤ wrap_dist_x 1 111 112 ∧ wrap_dist_x 1 111 112 ≤ 112 / 2 :=
  wrap_dist_symm_bounds 1 111 112 (by decide)

/-- C1: the tunneling branch is never executed.  At the spec's own
tunneling example (previous player `(1,0)` / pursuer `(111,0)`, current
player `(3,0)` / pursuer `(109,0)`, one active non-caged pursuer), the
current-sample overlap test fails (`dx = 6 > 3`) and the very next
statement of `_check_ghost_collision` evaluates the undefined attribute
`self._wrap_dist` (src/main.py line 283; only `_wrap_dist_x` exists), so
the call raises `AttributeError` instead of returning true. -/
theorem tunneling_branch_raises :
    check_ghost_collision cgen
      (gameWith 2 (engOf (agentAt 3 0) [agentAt 109 0] 5) 0)
      (1, 0) [(111, 0)] = .error attrError := rfl

/-- C4: the overlap case is not reached for a pursuer that is preceded in
the list by an active, non-caged, non-overlapping pursuer: the earlier
iteration evaluates the undefined attribute `self._wrap_dist`
(src/main.py line 283) and raises `AttributeError`, so the check does not
return true even though the second pursuer overlaps the player exactly. -/
theorem overlap_case_raises :
    check_ghost_collision cgen
      (gameWith 2 (engOf (agentAt 0 0) [agentAt 60 0, agentAt 0 0] 5) 0)
      (0, 0) [(60, 0), (0, 0)] = .error attrError := rfl

/-- C3 counterexample: the collision check is not observation-only.  With
lives = 2 and one active non-caged pursuer exactly overlapping the
player, `_check_ghost_collision` itself runs `_lose_life`: it reports the
collision (`true`) and the returned session state has lives = 1, not the
caller's 2. -/
theorem check_mutates_state :
    Except.map (fun p => (p.1.lives, p.2))
      (check_ghost_collision cgen
        (gameWith 2 (engOf (agentAt 0 0) [agentAt 0 0] 5) 0)
        (0, 0) [(0, 0)]) = .ok (1, true) ∧
    (gameWith 2 (engOf (agentAt 0 0) [agentAt 0 0] 5) 0).lives = 2 :=
  ⟨rfl, rfl⟩

/-- C3 amended: whenever `_check_ghost_collision` returns (rather than
raising), it returns a boolean; on `false` the session state is exactly
the caller's state, but on `true` the check has already performed the
life-loss terminal action itself (`return self._lose_life()`,
src/main.py lines 279, 304, 317) — the caller performs no terminal
action of its own. -/
theorem check_ok_spec (gen : Int → Engine) (g : Game) (pp : Int × Int)
    (gp : List (Int × Int)) (g' : Game) (b : Bool)
    (h : check_ghost_collision gen g pp gp = .ok (g', b)) :
    (b = false → g' = g) ∧ (b = true → g' = (lose_life gen g).1) := by
  rcases check_cases gen g pp gp g' b h with ⟨hb, hg⟩ | ⟨hb, hg⟩ <;>
    subst hb <;> exact ⟨by simp [hg], by simp [hg]⟩

/-- C3 amended witness: with no pursuers the check returns `false` and the
state it hands back is the caller's state unchanged. -/
theorem check_ok_spec_witness :
    check_ghost_collision cgen (gameWith 2 (engOf (agentAt 0 0) [] 5) 0)
      (0, 0) [] = .ok (gameWith 2 (engOf (agentAt 0 0) [] 5) 0, false) ∧
    gameWith 2 (engOf (agentAt 0 0) [] 5) 0 =
      gameWith 2 (engOf (agentAt 0 0) [] 5) 0 :=
  ⟨rfl,
    (check_ok_spec cgen (gameWith 2 (engOf (agentAt 0 0) [] 5) 0)
      (0, 0) [] (gameWith 2 (engOf (agentAt 0 0) [] 5) 0) false rfl).1 rfl⟩

/-- C5: life loss.  With lives = 0 a collision makes lives `-1`, sets the
game-over flag and preserves the level state (engine), level index and
machine state; with lives = 1 it makes lives 0, leaves the machine state
and game-over flag as they were (Play continues), installs a fresh engine
for the same level index with the player active, and zeroes the time
budget. -/
theorem lose_life_cases (gen : Int → Engine) (g : Game) :
    (g.lives = 0 →
      (lose_life gen g).1.lives = -1 ∧
      (lose_life gen g).1.game_over = true ∧
      (lose_life gen g).1.engine = g.engine ∧
      (lose_life gen g).1.level = g.level ∧
      (lose_life gen g).1.state = g.state ∧
      (lose_life gen g).1.engine_accum = g.engine_accum) ∧
    (g.lives = 1 →
      (lose_life gen g).1.lives = 0 ∧
      (lose_life gen g).1.game_over = g.game_over ∧
      (lose_life gen g).1.state = g.state ∧
      (lose_life gen g).1.level = g.level ∧
      (lose_life gen g).1.engine = withPacActive (gen g.level) ∧
      (lose_life gen g).1.engine.movingObjectPacman.isActive = true ∧
      (lose_life gen g).1.engine_accum = 0) := by
  constructor
  · intro h
    simp [lose_life, h]
  · intro h
    simp [lose_life, h, withPacActive]

/-- C6: pellet eat.  No eat is credited when either absolute sub-unit
component is nonzero or the relative tile coordinates are outside the
grid (the step is the identity); when the player sits exactly on an
in-bounds tile holding an un-destroyed pellet, the tile becomes
`empty`/destroyed, score increases by exactly 10, the pellet counter
decrements by exactly 1, and the eat happens exactly once (repeating the
step changes nothing). -/
theorem pellet_eat_spec (g : Game) (ax ay rx ry : Int)
    (habs : g.engine.movingObjectPacman.coordinateAbs = (ax, ay))
    (hrel : g.engine.movingObjectPacman.coordinateRel = (rx, ry)) :
    (¬(ax % 4 = 0 ∧ ay % 4 = 0) → pellet_step g = g) ∧
    (¬(0 ≤ rx ∧ rx < GRID_W ∧ 0 ≤ ry ∧ ry < GRID_H) → pellet_step g = g) ∧
    ((ax % 4 = 0 ∧ ay % 4 = 0) →
     (0 ≤ rx ∧ rx < GRID_W ∧ 0 ≤ ry ∧ ry < GRID_H) →
     (g.engine.levelObjects rx ry).name = "pellet" →
     (g.engine.levelObjects rx ry).isDestroyed = false →
       ((pellet_step g).engine.levelObjects rx ry).name = "empty" ∧
       ((pellet_step g).engine.levelObjects rx ry).isDestroyed = true ∧
       (pellet_step g).score = g.score + 10 ∧
       (pellet_step g).engine.levelPelletRemaining =
         g.engine.levelPelletRemaining - 1 ∧
       pellet_step (pellet_step g) = pellet_step g) := by
  have e1 : ¬(ax % 4 = 0 ∧ ay % 4 = 0) → pellet_step g = g := by
    intro h
    simp only [pellet_step, habs]
    rw [if_neg h]
  refine ⟨e1, ?_, ?_⟩
  · intro h
    by_cases hax : ax % 4 = 0 ∧ ay % 4 = 0
    · simp only [pellet_step, habs, hrel]
      rw [if_pos hax, if_neg h]
    · exact e1 hax
  · intro h1 h2 h3 h4
    have heat : pellet_step g =
        { g with
          engine := { g.engine with
            levelObjects := fun x y =>
              if x = rx ∧ y = ry then { name := "empty", isDestroyed := true }
              else g.engine.levelObjects x y,
            levelPelletRemaining := g.engine.levelPelletRemaining - 1 },
          score := g.score + 10 } := by
      simp only [pellet_step, habs, hrel]
      rw [if_pos h1, if_pos h2, if_pos ⟨h3, h4⟩]
    have hstep : ∀ h : Game,
        h.engine.movingObjectPacman.coordinateAbs = (ax, ay) →
        h.engine.movingObjectPacman.coordinateRel = (rx, ry) →
        (h.engine.levelObjects rx ry).name = "empty" →
        pellet_step h = h := by
      intro h hA hR hN
      simp only [pellet_step, hA, hR]
      rw [if_pos h1, if_pos h2, if_neg ?_]
      rintro ⟨hc, -⟩
      rw [hN] at hc
      exact absurd hc (by decide)
    refine ⟨?_, ?_, ?_, ?_, ?_⟩
    · rw [heat]
      simp
    · rw [heat]
      simp
    · rw [heat]
    · rw [heat]
    · exact hstep (pellet_step g) (by rw [heat]; exact habs)
        (by rw [heat]; exact hrel) (by rw [heat]; simp)

/-- C6 witness: the player of `gEat` sits on tile (1,2); the eat happens
with all effects, exactly once. -/
theorem pellet_eat_spec_witness :
    ((pellet_step gEat).engine.levelObjects 1 2).name = "empty" ∧
    ((pellet_step gEat).engine.levelObjects 1 2).isDestroyed = true ∧
    (pellet_step gEat).score = gEat.score + 10 ∧
    (pellet_step gEat).engine.levelPelletRemaining =
      gEat.engine.levelPelletRemaining - 1 ∧
    pellet_step (pellet_step gEat) = pellet_step gEat :=
  (pellet_eat_spec gEat 4 8 1 2 rfl rfl).2.2 (by decide) (by decide) rfl rfl

theorem lose_life_cases_witness :
    ((gameWith 0 (engOf (agentAt 1 1) [] 5) 0).lives = 0 ∧
      (lose_life cgen (gameWith 0 (engOf (agentAt 1 1) [] 5) 0)).1.lives = -1) ∧
    ((gameWith 1 (engOf (agentAt 1 1) [] 5) 0).lives = 1 ∧
      (lose_life cgen (gameWith 1 (engOf (agentAt 1 1) [] 5) 0)).1.lives = 0) :=
  ⟨⟨rfl, ((lose_life_cases cgen _).1 rfl).1⟩,
   ⟨rfl, ((lose_life_cases cgen _).2 rfl).1⟩⟩

/-- C2: level advance.  In a tick whose post-pellet state has no pellets
left, the loop performs exactly one level advance and ends the frame
(result count 1, independent of the remaining tick budget `n`); the
advance increments the level index, wrapping to 1 when no further level
content exists, installs a fresh level state with the player active,
zeroes the time budget, preserves score and lives, and — because the
fresh state's pellet counter is positive — it cannot re-trigger on the
next tick. -/
theorem level_advance_spec (gen : Int → Engine) (loopF : Engine → Engine)
    (existsL : Int → Bool) (g g3 : Game) (n : Nat)
    (hacc : engine_dt ≤ g.engine_accum)
    (hchk : tickOnce gen loopF g = .ok (g3, false))
    (hle : (pellet_step g3).engine.levelPelletRemaining ≤ 0)
    (hpos : ∀ l, 0 < (gen l).levelPelletRemaining) :
    tickLoop gen loopF existsL g (n + 1) =
      .ok (advance_level gen existsL (pellet_step g3), 1) ∧
    (advance_level gen existsL (pellet_step g3)).level =
      (if existsL ((pellet_step g3).level + 1) then (pellet_step g3).level + 1
       else 1) ∧
    (advance_level gen existsL (pellet_step g3)).engine =
      withPacActive (gen (advance_level gen existsL (pellet_step g3)).level) ∧
    (advance_level gen existsL
        (pellet_step g3)).engine.movingObjectPacman.isActive = true ∧
    (advance_level gen existsL (pellet_step g3)).engine_accum = 0 ∧
    (advance_level gen existsL (pellet_step g3)).score = (pellet_step g3).score ∧
    (advance_level gen existsL (pellet_step g3)).lives = (pellet_step g3).lives ∧
    0 < (advance_level gen existsL
        (pellet_step g3)).engine.levelPelletRemaining := by
  refine ⟨?_, rfl, rfl, rfl, rfl, rfl, rfl, hpos _⟩
  simp only [tickLoop]
  rw [if_pos hacc, hchk]
  dsimp only
  rw [if_pos hle]

/-- C2 witness: with a tick that leaves zero pellets, one loop pass
advances the level and ends the frame. -/
theorem level_advance_spec_witness :
    tickLoop cgen cloopZero cexists gC2 1 =
      .ok (advance_level cgen cexists
        (pellet_step (consumeTick cloopZero gC2)), 1) :=
  (level_advance_spec cgen cloopZero cexists gC2
    (consumeTick cloopZero gC2) 0
    (show engine_dt ≤ (1 : ℚ) by norm_num [engine_dt]) rfl
    (show (0 : Int) ≤ 0 by decide)
    (fun _ => show (0 : Int) < 5 by decide)).1

/-- When every tick is clean — the collision check returns no collision
and leaves the state untouched, and pellets always remain afterwards —
the loop runs exactly its full budget of `n` ticks, consuming
`n × engine_dt` from the accumulator and retaining the rest. -/
theorem tickLoop_clean (gen : Int → Engine) (loopF : Engine → Engine)
    (existsL : Int → Bool)
    (hchk : ∀ h : Game, tickOnce gen loopF h = .ok (consumeTick loopF h, false))
    (hpel : ∀ h : Game,
      ¬(pellet_step (consumeTick loopF h)).engine.levelPelletRemaining ≤ 0) :
    ∀ (n : Nat) (g : Game), (n : ℚ) * engine_dt ≤ g.engine_accum →
      ∃ gfin, tickLoop gen loopF existsL g n = .ok (gfin, n) ∧
        gfin.engine_accum = g.engine_accum - n * engine_dt := by
  intro n
  induction n with
  | zero =>
    intro g _
    exact ⟨g, by simp [tickLoop], by simp⟩
  | succ n ih =>
    intro g hg
    have hdtpos : (0 : ℚ) < engine_dt := by norm_num [engine_dt]
    have hcast : ((n + 1 : Nat) : ℚ) = (n : ℚ) + 1 := by push_cast; ring
    have hg' : ((n : ℚ) + 1) * engine_dt ≤ g.engine_accum := by
      rw [← hcast]; exact hg
    have hn0 : (0 : ℚ) ≤ (n : ℚ) := Nat.cast_nonneg n
    have hdt : engine_dt ≤ g.engine_accum := by nlinarith
    have hacc4 : (pellet_step (consumeTick loopF g)).engine_accum =
        g.engine_accum - engine_dt := by
      rcases pellet_step_preserves (consumeTick loopF g) with ⟨-, -, h3, -⟩ | he
      · rw [h3]
        rfl
      · rw [he]
        rfl
    obtain ⟨gfin, htl, hfin⟩ := ih (pellet_step (consumeTick loopF g)) (by
      rw [hacc4]
      nlinarith)
    refine ⟨gfin, ?_, ?_⟩
    · simp only [tickLoop]
      rw [if_pos hdt, hchk g]
      dsimp only
      rw [if_neg (hpel g), htl]
    · rw [hfin, hacc4, hcast]
      ring

/-- C7: tick cap with budget retention.  From Play state with an empty
accumulator, a single `update` call with a real delta of 10 tick
durations runs exactly 5 ticks (the cap) and retains the remaining
5 tick durations in the accumulator for the next call. -/
theorem tick_cap_spec (gen : Int → Engine) (loopF : Engine → Engine)
    (existsL : Int → Bool) (g : Game)
    (hstate : g.state = "PLAY") (hgo : g.game_over = false)
    (hacc : g.engine_accum = 0)
    (hchk : ∀ h : Game, tickOnce gen loopF h = .ok (consumeTick loopF h, false))
    (hpel : ∀ h : Game,
      ¬(pellet_step (consumeTick loopF h)).engine.levelPelletRemaining ≤ 0) :
    Except.map (fun p => (p.1.engine_accum, p.2))
      (update gen loopF existsL g (10 * engine_dt)) =
      .ok (5 * engine_dt, 5) := by
  obtain ⟨gfin, htl, hfin⟩ := tickLoop_clean gen loopF existsL hchk hpel 5
    { g with anim_t := g.anim_t + 10 * engine_dt,
             engine_accum := g.engine_accum + 10 * engine_dt }
    (by
      show (5 : ℚ) * engine_dt ≤ g.engine_accum + 10 * engine_dt
      rw [hacc]
      norm_num [engine_dt])
  unfold update
  rw [if_neg (by simp [hgo, hstate])]
  show Except.map _ (tickLoop gen loopF existsL _ 5) = _
  rw [htl]
  have : gfin.engine_accum = 5 * engine_dt := by
    rw [hfin]
    show g.engine_accum + 10 * engine_dt - (5 : Nat) * engine_dt = 5 * engine_dt
    rw [hacc]
    push_cast
    ring
  simp [Except.map, this]

/-- C7 witness: concrete run with a ghost-free engine tick and ample
pellets; 5 ticks run and half the budget is retained. -/
theorem tick_cap_spec_witness :
    Except.map (fun p => (p.1.engine_accum, p.2))
      (update cgen cloop cexists gC7 (10 * engine_dt)) =
      .ok (5 * engine_dt, 5) :=
  tick_cap_spec cgen cloop cexists gC7 rfl rfl rfl (fun _ => rfl)
    (fun _ => show ¬((10 : Int) ≤ 0) by decide)

/-- C8: restart from game over.  With the game-over flag set, a confirm
key (Enter or Space), any pointer press or release, or any touch press
resets score to 0, lives to 2, level to 1, clears the game-over flag,
installs a fresh level-1 engine with the player active, zeroes the time
budget, and moves the machine state to TITLE. -/
theorem restart_spec (gen : Int → Engine) (inStart : Int × Int → Bool)
    (fingerInStart : ℚ → ℚ → Bool) (dpadDir : Int × Int → Option String)
    (g : Game) (e : Event)
    (hgo : g.game_over = true)
    (he : e = .keydown "return" ∨ e = .keydown "space" ∨
          (∃ p, e = .mousebuttondown p) ∨ (∃ p, e = .mousebuttonup p) ∨
          (∃ x y, e = .fingerdown x y)) :
    handle_event gen inStart fingerInStart dpadDir g e =
      .ok { reset_game gen g with state := "TITLE" } ∧
    ({ reset_game gen g with state := "TITLE" } : Game).score = 0 ∧
    ({ reset_game gen g with state := "TITLE" } : Game).lives = 2 ∧
    ({ reset_game gen g with state := "TITLE" } : Game).level = 1 ∧
    ({ reset_game gen g with state := "TITLE" } : Game).game_over = false ∧
    ({ reset_game gen g with state := "TITLE" } : Game).state = "TITLE" ∧
    ({ reset_game gen g with state := "TITLE" } : Game).engine =
      withPacActive (gen 1) ∧
    ({ reset_game gen g with state := "TITLE" }
      : Game).engine.movingObjectPacman.isActive = true ∧
    ({ reset_game gen g with state := "TITLE" } : Game).engine_accum = 0 := by
  refine ⟨?_, rfl, rfl, rfl, rfl, rfl, rfl, rfl, rfl⟩
  rcases he with h | h | ⟨p, h⟩ | ⟨p, h⟩ | ⟨x, y, h⟩ <;> subst h <;>
    simp [handle_event, hgo]

/-- C8 witness: pressing Enter on a game-over session restarts it. -/
theorem restart_spec_witness :
    handle_event cgen cInStart cFingerInStart cDpad gOver
      (.keydown "return") =
      .ok { reset_game cgen gOver with state := "TITLE" } :=
  (restart_spec cgen cInStart cFingerInStart cDpad gOver
    (.keydown "return") rfl (Or.inl rfl)).1

/-! ## Lemmas for the reachability invariant (C10) -/

theorem lose_life_inv (gen : Int → Engine) (g : Game) (h : 0 ≤ g.lives) :
    SessionInv (lose_life gen g).1 := by
  unfold SessionInv lose_life
  dsimp only
  split
  · refine ⟨?_, ?_⟩
    · show -1 ≤ g.lives - 1
      omega
    · intro hh
      have hb : (true : Bool) = false := hh
      cases hb
  · next hnlt =>
    refine ⟨?_, fun _ => ?_⟩
    · show -1 ≤ g.lives - 1
      omega
    · show 0 ≤ g.lives - 1
      omega

theorem check_inv (gen : Int → Engine) (g : Game) (pp : Int × Int)
    (gp : List (Int × Int)) (g' : Game) (b : Bool)
    (h : check_ghost_collision gen g pp gp = .ok (g', b))
    (hinv : SessionInv g) (hgo : g.game_over = false) : SessionInv g' := by
  rcases check_cases gen g pp gp g' b h with ⟨-, hg⟩ | ⟨-, hg⟩
  · rw [hg]
    exact hinv
  · rw [hg]
    exact lose_life_inv gen g (hinv.2 hgo)

theorem pellet_step_lives (g : Game) : (pellet_step g).lives = g.lives := by
  rcases pellet_step_preserves g with ⟨h, -⟩ | h
  · exact h
  · rw [h]

theorem pellet_step_go (g : Game) :
    (pellet_step g).game_over = g.game_over := by
  rcases pellet_step_preserves g with ⟨-, h, -⟩ | h
  · exact h
  · rw [h]

theorem pellet_step_inv (g : Game) (h : SessionInv g) :
    SessionInv (pellet_step g) := by
  unfold SessionInv at h ⊢
  rw [pellet_step_lives, pellet_step_go]
  exact h

theorem tickLoop_inv (gen : Int → Engine) (loopF : Engine → Engine)
    (existsL : Int → Bool) :
    ∀ (n : Nat) (g g' : Game) (k : Nat), SessionInv g →
      g.game_over = false →
      tickLoop gen loopF existsL g n = .ok (g', k) → SessionInv g' := by
  intro n
  induction n with
  | zero =>
    intro g g' k hinv hgo h
    rw [tickLoop] at h
    cases h
    exact hinv
  | succ n ih =>
    intro g g' k hinv hgo h
    simp only [tickLoop] at h
    split at h
    · cases hc : tickOnce gen loopF g with
      | error msg =>
        rw [hc] at h
        cases h
      | ok p =>
        obtain ⟨g3, b⟩ := p
        rw [hc] at h
        have hcinv : SessionInv (consumeTick loopF g) := hinv
        have hcgo : (consumeTick loopF g).game_over = false := hgo
        have h3 : SessionInv g3 :=
          check_inv gen (consumeTick loopF g) _ _ g3 b hc hcinv hcgo
        cases b with
        | true =>
          cases h
          exact h3
        | false =>
          have hg3 : g3 = consumeTick loopF g := by
            rcases check_cases gen (consumeTick loopF g) _ _ g3 false hc with
              ⟨-, hh⟩ | ⟨hb, -⟩
            · exact hh
            · cases hb
          dsimp only at h
          split at h
          · cases h
            exact pellet_step_inv g3 h3
          · cases htl : tickLoop gen loopF existsL (pellet_step g3) n with
            | error msg =>
              rw [htl] at h
              cases h
            | ok q =>
              obtain ⟨g5, k'⟩ := q
              rw [htl] at h
              cases h
              exact ih (pellet_step g3) _ k' (pellet_step_inv g3 h3)
                (by rw [pellet_step_go, hg3]; exact hgo) htl
    · cases h
      exact hinv

theorem update_inv (gen : Int → Engine) (loopF : Engine → Engine)
    (existsL : Int → Bool) (g : Game) (dt : ℚ) (g' : Game) (k : Nat)
    (h : update gen loopF existsL g dt = .ok (g', k))
    (hinv : SessionInv g) : SessionInv g' := by
  unfold update at h
  split at h
  · cases h
    exact hinv
  · next hcond =>
    push_neg at hcond
    obtain ⟨hgo, -⟩ := hcond
    have hgo' : g.game_over = false := by
      cases hb : g.game_over
      · rfl
      · exact absurd hb hgo
    exact tickLoop_inv gen loopF existsL max_steps
      { g with anim_t := g.anim_t + dt, engine_accum := g.engine_accum + dt }
      g' k hinv hgo' h

theorem handle_event_cases (gen : Int → Engine) (inStart : Int × Int → Bool)
    (fingerInStart : ℚ → ℚ → Bool) (dpadDir : Int × Int → Option String)
    (g : Game) (e : Event) (g' : Game)
    (h : handle_event gen inStart fingerInStart dpadDir g e = .ok g') :
    (g'.lives = g.lives ∧ g'.game_over = g.game_over) ∨
    g' = { reset_game gen g with state := "TITLE" } := by
  cases e <;> simp only [handle_event] at h
  case keydown k =>
    split at h
    · cases h
    · split at h
      · split at h
        · cases h
          exact Or.inr rfl
        · cases h
          exact Or.inl ⟨rfl, rfl⟩
      · split at h
        · split at h <;> (cases h; exact Or.inl ⟨rfl, rfl⟩)
        · split at h <;> (cases h; exact Or.inl ⟨rfl, rfl⟩)
  case mousebuttondown p =>
    split at h
    · cases h
      exact Or.inr rfl
    · split at h
      · split at h <;> (cases h; exact Or.inl ⟨rfl, rfl⟩)
      · split at h <;> (cases h; exact Or.inl ⟨rfl, rfl⟩)
  case mousebuttonup p =>
    split at h
    · cases h
      exact Or.inr rfl
    · split at h
      · split at h <;> (cases h; exact Or.inl ⟨rfl, rfl⟩)
      · cases h
        exact Or.inl ⟨rfl, rfl⟩
  case fingerdown x y =>
    split at h
    · cases h
      exact Or.inr rfl
    · split at h
      · split at h <;> (cases h; exact Or.inl ⟨rfl, rfl⟩)
      · cases h
        exact Or.inl ⟨rfl, rfl⟩

theorem handle_event_inv (gen : Int → Engine) (inStart : Int × Int → Bool)
    (fingerInStart : ℚ → ℚ → Bool) (dpadDir : Int × Int → Option String)
    (g : Game) (e : Event) (g' : Game)
    (h : handle_event gen inStart fingerInStart dpadDir g e = .ok g')
    (hinv : SessionInv g) : SessionInv g' := by
  rcases handle_event_cases gen inStart fingerInStart dpadDir g e g' h with
    ⟨h1, h2⟩ | hR
  · refine ⟨?_, fun hf => ?_⟩
    · rw [h1]
      exact hinv.1
    · rw [h1]
      exact hinv.2 (by rw [← h2]; exact hf)
  · rw [hR]
    refine ⟨?_, fun _ => ?_⟩
    · show (-1 : Int) ≤ 2
      decide
    · show (0 : Int) ≤ 2
      decide

/-- C10: lives never fall below -1 in any reachable session state; the
only decrement is the life-loss path (by exactly 1, guarded by the
invariant that lives are non-negative while play continues), and once the
game-over flag is set, `update` is a no-op, so no further life loss can
occur until an explicit restart resets lives. -/
theorem lives_floor (gen : Int → Engine) (loopF : Engine → Engine)
    (existsL : Int → Bool) (inStart : Int × Int → Bool)
    (fingerInStart : ℚ → ℚ → Bool) (dpadDir : Int × Int → Option String)
    (g : Game)
    (h : Reachable gen loopF existsL inStart fingerInStart dpadDir g) :
    -1 ≤ g.lives ∧
    (∀ dt : ℚ, g.game_over = true →
      update gen loopF existsL g dt = .ok (g, 0)) := by
  have hinv : SessionInv g := by
    induction h with
    | init =>
      refine ⟨?_, fun _ => ?_⟩
      · show (-1 : Int) ≤ 2
        decide
      · show (0 : Int) ≤ 2
        decide
    | ev hprev hev ih =>
      exact handle_event_inv gen inStart fingerInStart dpadDir _ _ _ hev ih
    | upd hprev hupd ih =>
      exact update_inv gen loopF existsL _ _ _ _ hupd ih
  refine ⟨hinv.1, fun dt hgo => ?_⟩
  unfold update
  rw [if_pos (Or.inl hgo)]

/-- C10 witness: the invariant applied at the initially reachable
session. -/
theorem lives_floor_witness : -1 ≤ (initGame cgen).lives :=
  (lives_floor cgen cloop cexists cInStart cFingerInStart cDpad
    (initGame cgen) Reachable.init).1

end FitzMan
